import Mathlib

/-!
Shallow embedding of the `securepass` WASM crypto core
(`src/src-wasm/src/lib.rs`) and proofs about its claimed properties.

Bytes are modelled as `Nat` (each in `[0, 256)` in the real program, a
range none of the verified properties depend on). The externally-trusted
primitives the core composes (Argon2id via the `argon2` crate, AES-256-GCM
via the `aes_gcm` crate, UTF-8 codecs from the Rust standard library,
serde_json, and the `rand` random source) are abstracted as structures
whose fields carry exactly the contracts those libraries document
(e.g. an AEAD decrypts its own encryptions); everything written in
`lib.rs` itself — length validation, error routing, ordering of calls,
the password-generation algorithm, history rotation, zeroization — is
translated concretely.

A Rust `panic!` (reachable through `Nonce::from_slice` on a nonce whose
length is not 12) is modelled by an outer `Option` layer: `none` is a
panic, `some r` is a normal return with result `r`.
-/

/-- Error values produced by the core. The Rust source formats each stage's
error as a distinct message string ("Cipher init error: ...",
"Encryption error: ...", ...); each constructor models one such stage tag,
carrying the underlying library detail text. -/
inductive WasmError where
  | cipherInit (detail : String)
  | encryption (detail : String)
  | decryption (detail : String)
  | utf8 (detail : String)
  | wrapping (detail : String)
  | unwrapping (detail : String)
  | argon2 (detail : String)
  | historyParse (detail : String)
  | historySerialize (detail : String)
deriving DecidableEq, Repr

/-- A byte string, as exchanged with the caller (`&[u8]` / `Vec<u8>`). -/
abbrev Bytes := List Nat

/-- A 32-byte buffer, the type of `[u8; 32]` master keys. -/
abbrev Key32 := { l : Bytes // l.length = 32 }

/-- Abstract model of the `aes_gcm` crate's AES-256-GCM implementation:
`enc key nonce msg` is `cipher.encrypt(nonce, msg)`, `dec key nonce ct` is
`cipher.decrypt(nonce, ct)`. The field `dec_enc` is the AEAD contract the
library documents: decryption inverts encryption under the same key and
nonce. -/
structure AeadImpl where
  enc : Bytes → Bytes → Bytes → Except String Bytes
  dec : Bytes → Bytes → Bytes → Except String Bytes
  dec_enc : ∀ key nonce msg ct, enc key nonce msg = .ok ct → dec key nonce ct = .ok msg

/-- Abstract model of `Argon2::default().hash_password_into(password, salt, &mut out32)`:
on success it fills the caller's 32-byte output buffer, hence the `Key32`
result; on failure the library reports a parameter error. A deterministic
function of (password, salt), as Argon2id is. -/
structure KdfImpl where
  hash : Bytes → Bytes → Except String Key32

/-- Abstract model of the Rust standard library's UTF-8 codec:
`encode` is `str::as_bytes`, `decode` is `String::from_utf8`. The field
`decode_encode` is the standard-library contract that decoding the encoding
of a string gives the string back. -/
structure Utf8Impl where
  encode : String → Bytes
  decode : Bytes → Except String String
  decode_encode : ∀ s, decode (encode s) = .ok s

/-- Abstract model of serde_json restricted to the one shape the core uses,
a JSON array of strings: `parseList` is `serde_json::from_str::<Vec<String>>`,
`printList` is `serde_json::to_string`. -/
structure JsonImpl where
  parseList : String → Except String (List String)
  printList : List String → Except String String

/-- Model of `Aes256Gcm::new_from_slice(key)`: succeeds exactly when the key
slice is 32 bytes, otherwise reports the library's `InvalidLength` error. -/
def new_from_slice (key : Bytes) : Except String Bytes :=
  if key.length = 32 then .ok key else .error "InvalidLength"

/-- Model of `Nonce::from_slice(iv)`: the underlying `GenericArray::from_slice`
panics (modelled as `none`) unless the slice is exactly 12 bytes. -/
def nonce_from_slice (iv : Bytes) : Option Bytes :=
  if iv.length = 12 then some iv else none

/-- The `CryptoBridge` struct: the session object holding the derived
32-byte master key (`master_key: [u8; 32]`). -/
structure CryptoBridge where
  master_key : Key32

/-- Model of `CryptoBridge::new_internal(password, salt)`: derive the master
key from the password bytes and salt with Argon2id; on failure report an
Argon2 error and build no session. -/
def new_internal (k : KdfImpl) (u : Utf8Impl) (password : String) (salt : Bytes) :
    Except WasmError CryptoBridge :=
  match k.hash (u.encode password) salt with
  | .error e => .error (.argon2 e)
  | .ok key => .ok ⟨key⟩

/-- Model of `CryptoBridge::encrypt_internal(plaintext, iv)`: build the cipher
from the 32-byte master key, build the nonce from `iv` (panicking if `iv` is
not 12 bytes), then encrypt the UTF-8 bytes of the plaintext. -/
def encrypt_internal (a : AeadImpl) (u : Utf8Impl) (b : CryptoBridge)
    (plaintext : String) (iv : Bytes) : Option (Except WasmError Bytes) :=
  match new_from_slice b.master_key.val with
  | .error e => some (.error (.cipherInit e))
  | .ok key =>
    match nonce_from_slice iv with
    | none => none
    | some nonce =>
      match a.enc key nonce (u.encode plaintext) with
      | .error e => some (.error (.encryption e))
      | .ok ct => some (.ok ct)

/-- Model of `CryptoBridge::decrypt_internal(ciphertext, iv)`: build the cipher
from the 32-byte master key, build the nonce from `iv` (panicking if `iv` is
not 12 bytes), decrypt, then decode the plaintext bytes as UTF-8. -/
def decrypt_internal (a : AeadImpl) (u : Utf8Impl) (b : CryptoBridge)
    (ciphertext iv : Bytes) : Option (Except WasmError String) :=
  match new_from_slice b.master_key.val with
  | .error e => some (.error (.cipherInit e))
  | .ok key =>
    match nonce_from_slice iv with
    | none => none
    | some nonce =>
      match a.dec key nonce ciphertext with
      | .error e => some (.error (.decryption e))
      | .ok ptv =>
        match u.decode ptv with
        | .error e => some (.error (.utf8 e))
        | .ok s => some (.ok s)

/-- The fixed salt `b"WebVault_BioSalt"` baked into biometric key
derivation. -/
def bio_salt : Bytes := "WebVault_BioSalt".data.map Char.toNat

/-- Model of the standalone `derive_bio_key(credential_id)`: Argon2id over the
credential identifier with the fixed salt `bio_salt`, returning the 32-byte
key as a plain byte vector (`key.to_vec()`). -/
def derive_bio_key (k : KdfImpl) (credential_id : Bytes) : Except WasmError Bytes :=
  match k.hash credential_id bio_salt with
  | .error e => .error (.argon2 e)
  | .ok key => .ok key.val

/-- Model of the standalone `wrap_password(password, bio_key, iv)`: build the
cipher from the caller-supplied `bio_key` (failing with a cipher-init error
when it is not 32 bytes), build the nonce from `iv` (panicking when it is not
12 bytes), then encrypt the password's UTF-8 bytes. -/
def wrap_password (a : AeadImpl) (u : Utf8Impl) (password : String)
    (bio_key iv : Bytes) : Option (Except WasmError Bytes) :=
  match new_from_slice bio_key with
  | .error e => some (.error (.cipherInit e))
  | .ok key =>
    match nonce_from_slice iv with
    | none => none
    | some nonce =>
      match a.enc key nonce (u.encode password) with
      | .error e => some (.error (.wrapping e))
      | .ok ct => some (.ok ct)

/-- Model of the standalone `unwrap_password(wrapped_data, bio_key, iv)`:
build the cipher from the caller-supplied `bio_key` (failing with a
cipher-init error when it is not 32 bytes), build the nonce from `iv`
(panicking when it is not 12 bytes), decrypt, then decode as UTF-8. -/
def unwrap_password (a : AeadImpl) (u : Utf8Impl) (wrapped_data : Bytes)
    (bio_key iv : Bytes) : Option (Except WasmError String) :=
  match new_from_slice bio_key with
  | .error e => some (.error (.cipherInit e))
  | .ok key =>
    match nonce_from_slice iv with
    | none => none
    | some nonce =>
      match a.dec key nonce wrapped_data with
      | .error e => some (.error (.unwrapping e))
      | .ok ptv =>
        match u.decode ptv with
        | .error e => some (.error (.utf8 e))
        | .ok s => some (.ok s)

/-- The settings struct for the password generator (`PasswordOptions`). -/
structure PasswordOptions where
  length : Nat
  use_uppercase : Bool
  use_numbers : Bool
  use_symbols : Bool

/-- Abstract model of the `rand` crate random source (`rand::thread_rng()`):
`tape i` is the raw random value behind the i-th `gen_range` call of one
generator invocation (any tape is a possible outcome), and `shuffle` is the
permutation `SliceRandom::shuffle` applies, with the library's contract that
shuffling permutes the slice. -/
structure RandSrc where
  tape : Nat → Nat
  shuffle : List Char → List Char
  shuffle_perm : ∀ l, (shuffle l).Perm l

/-- Model of `rng.gen_range(0..bound)` at the i-th call of the invocation:
an arbitrary outcome reduced into range. Every value below `bound` is a
possible result. -/
def gen_range (r : RandSrc) (i bound : Nat) : Nat := r.tape i % bound

/-- Model of `charset.chars().nth(rng.gen_range(0..charset.len())).unwrap()`:
pick the character of `cs` at a random in-range index (the `.unwrap()` never
panics because the index is below `cs.length`; the default is never used). -/
def pickFrom (r : RandSrc) (i : Nat) (cs : List Char) : Char :=
  cs.getD (gen_range r i cs.length) 'a'

/-- The lowercase alphabet used by `generate_password_core`. -/
def lowercaseChars : List Char := "abcdefghijklmnopqrstuvwxyz".data

/-- The uppercase alphabet used by `generate_password_core`. -/
def uppercaseChars : List Char := "ABCDEFGHIJKLMNOPQRSTUVWXYZ".data

/-- The digit alphabet used by `generate_password_core`. -/
def numberChars : List Char := "0123456789".data

/-- The symbol alphabet used by `generate_password_core`. -/
def symbolChars : List Char := "!@#$%^&*()_+~`|\x7d\x7b[]:;?><,./-=".data

/-- The `guaranteed_chars` vector built by `generate_password_core`: one
random character from each enabled class, pushed in class-enable order
(lowercase always first, then uppercase, numbers, symbols when enabled),
consuming one `gen_range` call each. -/
def guaranteedChars (r : RandSrc) (o : PasswordOptions) : List Char :=
  [pickFrom r 0 lowercaseChars]
    ++ (if o.use_uppercase then [pickFrom r 1 uppercaseChars] else [])
    ++ (if o.use_numbers then
          [pickFrom r (1 + (if o.use_uppercase then 1 else 0)) numberChars]
        else [])
    ++ (if o.use_symbols then
          [pickFrom r (1 + (if o.use_uppercase then 1 else 0)
              + (if o.use_numbers then 1 else 0)) symbolChars]
        else [])

/-- The `charset` string built by `generate_password_core`: lowercase, then
each enabled class appended in the same order. -/
def charsetFor (o : PasswordOptions) : List Char :=
  lowercaseChars
    ++ (if o.use_uppercase then uppercaseChars else [])
    ++ (if o.use_numbers then numberChars else [])
    ++ (if o.use_symbols then symbolChars else [])

/-- The number of enabled character classes (lowercase always counts). -/
def numClasses (o : PasswordOptions) : Nat :=
  1 + (if o.use_uppercase then 1 else 0) + (if o.use_numbers then 1 else 0)
    + (if o.use_symbols then 1 else 0)

/-- Model of `CryptoBridge::generate_password_core(options)`. If the requested
length is below the number of guaranteed characters, return the first
`length` guaranteed characters with no shuffle; otherwise fill
`length - guaranteed` characters uniformly from the combined charset
(consuming the next `gen_range` calls), append the guaranteed characters and
shuffle the whole vector. -/
def generate_password_core (r : RandSrc) (o : PasswordOptions) : String :=
  let guaranteed := guaranteedChars r o
  if o.length < guaranteed.length then
    String.mk (guaranteed.take o.length)
  else
    let fill := (List.range (o.length - guaranteed.length)).map
      (fun i => pickFrom r (guaranteed.length + i) (charsetFor o))
    String.mk (r.shuffle (fill ++ guaranteed))

/-- The pure rotation step inside `rotate_history_internal`: insert the
current password at index 0, then truncate to 5 entries when the list has
grown beyond 5. -/
def rotate_list (current_password : String) (history : List String) : List String :=
  let h := current_password :: history
  if h.length > 5 then h.take 5 else h

/-- Model of `CryptoBridge::rotate_history_internal(current_password,
history_json)`: parse the JSON history list, prepend the current password,
truncate to at most 5 entries, and re-serialize. -/
def rotate_history_internal (j : JsonImpl) (current_password history_json : String) :
    Except WasmError String :=
  match j.parseList history_json with
  | .error e => .error (.historyParse e)
  | .ok history =>
    match j.printList (rotate_list current_password history) with
    | .error e => .error (.historySerialize e)
    | .ok out => .ok out

/-- Model of `Zeroize::zeroize` on a `[u8; 32]` buffer: overwrite every byte
in place with zero. -/
def zeroize (key : Key32) : Key32 :=
  ⟨key.val.map (fun _ => 0), by simp [key.property]⟩

/-- Model of `Drop::drop for CryptoBridge`: the state of the bridge after its
destructor ran, its key buffer zeroized. -/
def drop_bridge (b : CryptoBridge) : CryptoBridge :=
  ⟨zeroize b.master_key⟩

/-- A concrete AEAD instance (ciphertext = message) satisfying the AEAD
round-trip contract; used to evaluate the theorems at concrete inputs. -/
def idAead : AeadImpl where
  enc := fun _ _ msg => .ok msg
  dec := fun _ _ ct => .ok ct
  dec_enc := fun _ _ _ _ h => by cases h; rfl

/-- A concrete UTF-8 codec instance: encode a string as its character codes.
Satisfies the decode-encode contract. -/
def codeUtf8 : Utf8Impl where
  encode := fun s => s.data.map Char.toNat
  decode := fun l => .ok (String.mk (l.map Char.ofNat))
  decode_encode := by
    intro s
    have h : (s.data.map Char.toNat).map Char.ofNat = s.data := by
      rw [List.map_map]
      simp [Function.comp_def, Char.ofNat_toNat]
    show Except.ok (String.mk ((s.data.map Char.toNat).map Char.ofNat)) = .ok s
    rw [h]

/-- A concrete key-derivation instance returning the all-zero 32-byte key. -/
def constKdf : KdfImpl where
  hash := fun _ _ => .ok ⟨List.replicate 32 0, by simp⟩

/-- A concrete list codec instance: each character of the encoded string is
one entry of the list. -/
def charJson : JsonImpl where
  parseList := fun s => .ok (s.data.map (fun c => String.mk [c]))
  printList := fun l => .ok (String.join l)

/-- A concrete random source: the constant-zero tape with the identity
shuffle. -/
def idRand : RandSrc where
  tape := fun _ => 0
  shuffle := fun l => l
  shuffle_perm := fun l => List.Perm.refl l

/-- A concrete session holding the all-zero master key. -/
def bridge0 : CryptoBridge := ⟨⟨List.replicate 32 0, by simp⟩⟩

/-- C1: for every plaintext P, 12-byte nonce N and session key, decrypting
the result of encrypting P under that key and N, with the same key and
nonce, returns exactly P. -/
theorem C1_encrypt_decrypt_roundtrip (a : AeadImpl) (u : Utf8Impl)
    (b : CryptoBridge) (P : String) (N ct : Bytes) (hN : N.length = 12)
    (henc : encrypt_internal a u b P N = some (.ok ct)) :
    decrypt_internal a u b ct N = some (.ok P) := by
  have hkey := b.master_key.property
  simp only [encrypt_internal, new_from_slice, nonce_from_slice, hkey, hN,
    if_true, eq_self_iff_true] at henc
  cases hae : a.enc b.master_key.val N (u.encode P) with
  | error e => rw [hae] at henc; cases henc
  | ok ct' =>
    rw [hae] at henc
    have hct : ct' = ct := by
      cases henc
      rfl
    subst hct
    have hdec := a.dec_enc _ _ _ _ hae
    simp only [decrypt_internal, new_from_slice, nonce_from_slice, hkey, hN,
      if_true, eq_self_iff_true, hdec, u.decode_encode]

/-- Witness for C1: round-trip evaluated at a concrete session, plaintext
and nonce. -/
theorem C1_encrypt_decrypt_roundtrip_witness :
    (List.replicate 12 0 : Bytes).length = 12 ∧
    encrypt_internal idAead codeUtf8 bridge0 "hi" (List.replicate 12 0)
      = some (.ok [104, 105]) ∧
    decrypt_internal idAead codeUtf8 bridge0 [104, 105] (List.replicate 12 0)
      = some (.ok "hi") :=
  ⟨by decide, by rfl,
    C1_encrypt_decrypt_roundtrip idAead codeUtf8 bridge0 "hi" (List.replicate 12 0)
      [104, 105] (by decide) (by rfl)⟩

/-- C2: for every key whose length is not 32 bytes and every nonce whose
length is not 12 bytes, the wrapping (encrypt) and unwrapping (decrypt)
operations return a cipher-init error: the 32-byte key check of
`Aes256Gcm::new_from_slice` runs first and fails, so the call neither
succeeds nor fails any other way (and never reaches the nonce panic). -/
theorem C2_bad_lengths_cipher_init (a : AeadImpl) (u : Utf8Impl) (P : String)
    (ct key iv : Bytes) (hkey : key.length ≠ 32) (hiv : iv.length ≠ 12) :
    wrap_password a u P key iv = some (.error (.cipherInit "InvalidLength")) ∧
    unwrap_password a u ct key iv = some (.error (.cipherInit "InvalidLength")) := by
  constructor <;> simp [wrap_password, unwrap_password, new_from_slice, hkey]

/-- Witness for C2: a 1-byte key and an empty nonce. -/
theorem C2_bad_lengths_cipher_init_witness :
    ([0] : Bytes).length ≠ 32 ∧ ([] : Bytes).length ≠ 12 ∧
    (wrap_password idAead codeUtf8 "pw" [0] []
        = some (.error (.cipherInit "InvalidLength")) ∧
      unwrap_password idAead codeUtf8 [1, 2] [0] []
        = some (.error (.cipherInit "InvalidLength"))) :=
  ⟨by decide, by decide,
    C2_bad_lengths_cipher_init idAead codeUtf8 "pw" [1, 2] [0] []
      (by decide) (by decide)⟩

/-- C3: for every current password and every decodable history list,
`rotate_history` returns (the serialization of) the list obtained by
prepending the current password at index 0 and truncating to at most 5
entries, dropping from the tail. -/
theorem C3_rotate_prepend_truncate (j : JsonImpl) (c hjson : String)
    (l : List String) (out : String) (hp : j.parseList hjson = .ok l)
    (hpr : j.printList ((c :: l).take 5) = .ok out) :
    rotate_history_internal j c hjson = .ok out := by
  have hrl : rotate_list c l = (c :: l).take 5 := by
    unfold rotate_list
    by_cases h : (c :: l).length > 5
    · rw [if_pos h]
    · rw [if_neg h, List.take_of_length_le (by omega)]
  simp only [rotate_history_internal, hp, hrl, hpr]

/-- Witness for C3: the spec's example, rotating "6" into the full history
["1","2","3","4","5"] yields ["6","1","2","3","4"]. -/
theorem C3_rotate_prepend_truncate_witness :
    charJson.parseList "12345" = .ok ["1", "2", "3", "4", "5"] ∧
    charJson.printList (("6" :: ["1", "2", "3", "4", "5"]).take 5) = .ok "61234" ∧
    rotate_history_internal charJson "6" "12345" = .ok "61234" :=
  ⟨by rfl, by rfl,
    C3_rotate_prepend_truncate charJson "6" "12345" ["1", "2", "3", "4", "5"]
      "61234" (by rfl) (by rfl)⟩

/-- C4: key derivation is deterministic — two sessions constructed from the
same (password, salt) pair hold byte-for-byte identical master keys. -/
theorem C4_key_derivation_deterministic (k : KdfImpl) (u : Utf8Impl)
    (password : String) (salt : Bytes) (b1 b2 : CryptoBridge)
    (h1 : new_internal k u password salt = .ok b1)
    (h2 : new_internal k u password salt = .ok b2) :
    b1.master_key = b2.master_key := by
  rw [h1] at h2
  cases h2
  rfl

/-- Witness for C4: two constructions from the same concrete pair. -/
theorem C4_key_derivation_deterministic_witness :
    new_internal constKdf codeUtf8 "pw" [1, 2, 3] = .ok bridge0 ∧
    bridge0.master_key = bridge0.master_key :=
  ⟨by rfl,
    C4_key_derivation_deterministic constKdf codeUtf8 "pw" [1, 2, 3] bridge0 bridge0
      (by rfl) (by rfl)⟩

/-- C5: biometric round-trip — unwrapping the result of wrapping a password
under `derive_bio_key(C)` and a 12-byte nonce, with the same derived key and
nonce, returns exactly the password. -/
theorem C5_bio_wrap_roundtrip (k : KdfImpl) (a : AeadImpl) (u : Utf8Impl)
    (P : String) (C bk N ct : Bytes) (hN : N.length = 12)
    (hbk : derive_bio_key k C = .ok bk)
    (hwrap : wrap_password a u P bk N = some (.ok ct)) :
    unwrap_password a u ct bk N = some (.ok P) := by
  have h32 : bk.length = 32 := by
    unfold derive_bio_key at hbk
    cases hk : k.hash C bio_salt with
    | error e => rw [hk] at hbk; cases hbk
    | ok key =>
      rw [hk] at hbk
      cases hbk
      exact key.property
  simp only [wrap_password, new_from_slice, nonce_from_slice, h32, hN,
    if_true, eq_self_iff_true] at hwrap
  cases hae : a.enc bk N (u.encode P) with
  | error e => rw [hae] at hwrap; cases hwrap
  | ok ct' =>
    rw [hae] at hwrap
    have hct : ct' = ct := by
      cases hwrap
      rfl
    subst hct
    have hdec := a.dec_enc _ _ _ _ hae
    simp only [unwrap_password, new_from_slice, nonce_from_slice, h32, hN,
      if_true, eq_self_iff_true, hdec, u.decode_encode]

/-- Witness for C5: the biometric round-trip evaluated at a concrete
credential identifier, password and nonce. -/
theorem C5_bio_wrap_roundtrip_witness :
    (List.replicate 12 1 : Bytes).length = 12 ∧
    derive_bio_key constKdf [7, 8] = .ok (List.replicate 32 0) ∧
    wrap_password idAead codeUtf8 "pw" (List.replicate 32 0) (List.replicate 12 1)
      = some (.ok [112, 119]) ∧
    unwrap_password idAead codeUtf8 [112, 119] (List.replicate 32 0) (List.replicate 12 1)
      = some (.ok "pw") :=
  ⟨by decide, by rfl, by rfl,
    C5_bio_wrap_roundtrip constKdf idAead codeUtf8 "pw" [7, 8]
      (List.replicate 32 0) (List.replicate 12 1) [112, 119]
      (by decide) (by rfl) (by rfl)⟩

/-- The string built from a character list has that list's length. -/
theorem length_mk (l : List Char) : (String.mk l).length = l.length := rfl

/-- The guaranteed-character vector holds exactly one character per enabled
class. -/
theorem guaranteedChars_length (r : RandSrc) (o : PasswordOptions) :
    (guaranteedChars r o).length = numClasses o := by
  unfold guaranteedChars numClasses
  cases hu : o.use_uppercase <;> cases hn : o.use_numbers <;>
    cases hs : o.use_symbols <;> simp [hu, hn, hs]

/-- A randomly indexed pick from a nonempty character list is a member of
that list. -/
theorem pickFrom_mem (r : RandSrc) (i : Nat) (cs : List Char) (h : cs ≠ []) :
    pickFrom r i cs ∈ cs := by
  have hl : 0 < cs.length := List.length_pos.mpr h
  have hlt : gen_range r i cs.length < cs.length := Nat.mod_lt _ hl
  rw [pickFrom, List.getD_eq_getElem cs 'a' hlt]
  exact List.getElem_mem hlt

/-- When the requested length covers the guaranteed characters, every
guaranteed character appears in the generated password. -/
theorem mem_generate_of_mem_guaranteed (r : RandSrc) (o : PasswordOptions)
    (h : numClasses o ≤ o.length) (x : Char) (hx : x ∈ guaranteedChars r o) :
    x ∈ (generate_password_core r o).data := by
  have hg := guaranteedChars_length r o
  have hnot : ¬ o.length < (guaranteedChars r o).length := by omega
  simp only [generate_password_core]
  rw [if_neg hnot]
  show x ∈ r.shuffle _
  exact ((r.shuffle_perm _).mem_iff).mpr (List.mem_append_right _ hx)

/-- C6: when the requested length is at least the number of enabled
character classes, the generated password has exactly the requested length,
whatever the random source produced. -/
theorem C6_length_invariant (r : RandSrc) (o : PasswordOptions)
    (h : numClasses o ≤ o.length) :
    (generate_password_core r o).length = o.length := by
  have hg := guaranteedChars_length r o
  have hnot : ¬ o.length < (guaranteedChars r o).length := by omega
  simp only [generate_password_core]
  rw [if_neg hnot, length_mk, (r.shuffle_perm _).length_eq, List.length_append,
    List.length_map, List.length_range]
  omega

/-- Witness for C6: the tested configuration, length 16 with uppercase and
numbers enabled and symbols off. -/
theorem C6_length_invariant_witness :
    numClasses ⟨16, true, true, false⟩ ≤ 16 ∧
    (generate_password_core idRand ⟨16, true, true, false⟩).length = 16 :=
  ⟨by decide, C6_length_invariant idRand ⟨16, true, true, false⟩ (by decide)⟩

/-- C7: when the requested length is at least the number of enabled
character classes, the generated password contains at least one character
from each enabled class (lowercase always, plus uppercase, numbers, symbols
when their flags are set), whatever the random source produced. -/
theorem C7_guaranteed_diversity (r : RandSrc) (o : PasswordOptions)
    (h : numClasses o ≤ o.length) :
    (∃ c ∈ (generate_password_core r o).data, c ∈ lowercaseChars) ∧
    (o.use_uppercase = true →
      ∃ c ∈ (generate_password_core r o).data, c ∈ uppercaseChars) ∧
    (o.use_numbers = true →
      ∃ c ∈ (generate_password_core r o).data, c ∈ numberChars) ∧
    (o.use_symbols = true →
      ∃ c ∈ (generate_password_core r o).data, c ∈ symbolChars) := by
  refine ⟨?_, fun hu => ?_, fun hn => ?_, fun hs => ?_⟩
  · exact ⟨pickFrom r 0 lowercaseChars,
      mem_generate_of_mem_guaranteed r o h _ (by simp [guaranteedChars]),
      pickFrom_mem r 0 lowercaseChars (by decide)⟩
  · exact ⟨pickFrom r 1 uppercaseChars,
      mem_generate_of_mem_guaranteed r o h _ (by simp [guaranteedChars, hu]),
      pickFrom_mem r 1 uppercaseChars (by decide)⟩
  · exact ⟨pickFrom r (1 + (if o.use_uppercase then 1 else 0)) numberChars,
      mem_generate_of_mem_guaranteed r o h _ (by simp [guaranteedChars, hn]),
      pickFrom_mem r _ numberChars (by decide)⟩
  · exact ⟨pickFrom r (1 + (if o.use_uppercase then 1 else 0)
        + (if o.use_numbers then 1 else 0)) symbolChars,
      mem_generate_of_mem_guaranteed r o h _ (by simp [guaranteedChars, hs]),
      pickFrom_mem r _ symbolChars (by decide)⟩

/-- Witness for C7: diversity at the tested configuration, length 16 with
uppercase and numbers enabled and symbols off. -/
theorem C7_guaranteed_diversity_witness :
    numClasses ⟨16, true, true, false⟩ ≤ 16 ∧
    ((∃ c ∈ (generate_password_core idRand ⟨16, true, true, false⟩).data,
        c ∈ lowercaseChars) ∧
      ((⟨16, true, true, false⟩ : PasswordOptions).use_uppercase = true →
        ∃ c ∈ (generate_password_core idRand ⟨16, true, true, false⟩).data,
          c ∈ uppercaseChars) ∧
      ((⟨16, true, true, false⟩ : PasswordOptions).use_numbers = true →
        ∃ c ∈ (generate_password_core idRand ⟨16, true, true, false⟩).data,
          c ∈ numberChars) ∧
      ((⟨16, true, true, false⟩ : PasswordOptions).use_symbols = true →
        ∃ c ∈ (generate_password_core idRand ⟨16, true, true, false⟩).data,
          c ∈ symbolChars)) :=
  ⟨by decide, C7_guaranteed_diversity idRand ⟨16, true, true, false⟩ (by decide)⟩

/-- C8: when the requested length is strictly smaller than the number of
enabled classes, the generator returns exactly the first `length` guaranteed
characters in class-enable order with no shuffle; with length 1 the single
character is the guaranteed lowercase pick. -/
theorem C8_short_length_take_guaranteed (r : RandSrc) (o : PasswordOptions)
    (h : o.length < numClasses o) :
    generate_password_core r o = String.mk ((guaranteedChars r o).take o.length) ∧
    (o.length = 1 →
      generate_password_core r o = String.mk [pickFrom r 0 lowercaseChars]) := by
  have hg := guaranteedChars_length r o
  have hlt : o.length < (guaranteedChars r o).length := by omega
  have hbr : generate_password_core r o
      = String.mk ((guaranteedChars r o).take o.length) := by
    simp only [generate_password_core]
    rw [if_pos hlt]
  refine ⟨hbr, fun h1 => ?_⟩
  rw [hbr, h1]
  congr 1

/-- Witness for C8: length 1 with uppercase enabled. -/
theorem C8_short_length_take_guaranteed_witness :
    (⟨1, true, false, false⟩ : PasswordOptions).length
      < numClasses ⟨1, true, false, false⟩ ∧
    (generate_password_core idRand ⟨1, true, false, false⟩
        = String.mk ((guaranteedChars idRand ⟨1, true, false, false⟩).take 1) ∧
      ((⟨1, true, false, false⟩ : PasswordOptions).length = 1 →
        generate_password_core idRand ⟨1, true, false, false⟩
          = String.mk [pickFrom idRand 0 lowercaseChars])) :=
  ⟨by decide, C8_short_length_take_guaranteed idRand ⟨1, true, false, false⟩ (by decide)⟩

/-- C9: after the `Drop` destructor of `CryptoBridge` runs, the 32-byte
master key buffer holds only zero bytes: `zeroize` overwrote every byte in
place with zero. -/
theorem C9_drop_zeroizes_key (b : CryptoBridge) :
    (drop_bridge b).master_key.val = List.replicate 32 0 := by
  show b.master_key.val.map (fun _ => 0) = List.replicate 32 0
  have h : b.master_key.val.map (fun _ => 0)
      = List.replicate b.master_key.val.length 0 := by simp
  rw [h, b.master_key.property]

/-- C10: for every decodable input history list of any length, including one
already longer than 5 entries, the rotated list has at most 5 entries, its
first entry is the supplied current password, and its remaining entries are
in order a prefix of the input list; `rotate_history` returns its
serialization. -/
theorem C10_rotation_cap_restored (j : JsonImpl) (c hjson : String)
    (l : List String) (out : String) (hp : j.parseList hjson = .ok l)
    (hpr : j.printList (rotate_list c l) = .ok out) :
    rotate_history_internal j c hjson = .ok out ∧
    (rotate_list c l).length ≤ 5 ∧
    (rotate_list c l).head? = some c ∧
    ∃ n, (rotate_list c l).tail = l.take n := by
  have hsplit : rotate_list c l
      = c :: (if l.length + 1 > 5 then l.take 4 else l) := by
    unfold rotate_list
    by_cases h : (c :: l).length > 5
    · rw [if_pos h, if_pos (by simpa using h)]
      show (c :: l).take (4 + 1) = c :: l.take 4
      rw [List.take_succ_cons]
    · rw [if_neg h, if_neg (by simpa using h)]
  refine ⟨by simp only [rotate_history_internal, hp, hpr], ?_, ?_, ?_⟩
  · rw [hsplit]
    by_cases h : l.length + 1 > 5
    · simp [h]
    · simp [h]
      omega
  · rw [hsplit]
    rfl
  · rw [hsplit]
    by_cases h : l.length + 1 > 5
    · exact ⟨4, by simp [h]⟩
    · exact ⟨l.length, by simp [h, List.take_length l]⟩

/-- Witness for C10: an ill-formed 7-entry input history; the output is
capped back to 5 entries. -/
theorem C10_rotation_cap_restored_witness :
    charJson.parseList "1234567" = .ok ["1", "2", "3", "4", "5", "6", "7"] ∧
    charJson.printList (rotate_list "0" ["1", "2", "3", "4", "5", "6", "7"])
      = .ok "01234" ∧
    (rotate_history_internal charJson "0" "1234567" = .ok "01234" ∧
      (rotate_list "0" ["1", "2", "3", "4", "5", "6", "7"]).length ≤ 5 ∧
      (rotate_list "0" ["1", "2", "3", "4", "5", "6", "7"]).head? = some "0" ∧
      ∃ n, (rotate_list "0" ["1", "2", "3", "4", "5", "6", "7"]).tail
        = (["1", "2", "3", "4", "5", "6", "7"] : List String).take n) :=
  ⟨by rfl, by rfl,
    C10_rotation_cap_restored charJson "0" "1234567"
      ["1", "2", "3", "4", "5", "6", "7"] "01234" (by rfl) (by rfl)⟩
